import Mathlib

/-!
Verification of the exit-coordination state machine of the `exiting` package
(`lib/index.js`).  The JavaScript `Manager` class is shallowly embedded below:
its mutable fields become a `Manager` record, the async `_exit` entry point
becomes a fuel-indexed function (the only internal recursion is the single
`return this._exit()` from the `started` branch, so fuel 2 suffices), and the
external server collaborators are represented by oracles describing the
outcome of their `start`/`stop` calls and `onPreStop` hooks.
-/

namespace Exiting

/-- The `state` field values of `Manager` (`lib/index.js` line 44). -/
inductive MState
  | starting
  | started
  | stopping
  | prestopped
  | stopped
  | startAborted
  | errored
  | timeout
deriving DecidableEq, Repr

/-- The mutable fields of a `Manager` instance (`lib/index.js` lines 40-47).
`exitTimer` models the truthiness of the JS `exitTimer` field (it holds a
timer handle once set and is never reset, not even by `clearTimeout`);
`timerPending` models whether the runtime still has the timeout scheduled
(cleared when the timer fires or when `deactivate` calls `clearTimeout`). -/
structure Manager where
  exitTimeout : Int
  state : Option MState
  exitTimer : Bool
  timerPending : Bool
  exitCode : Int
  active : Bool
deriving DecidableEq, Repr

/-- Oracle for the behaviour of the external servers during the stop issued
from `_exit`'s `started` branch: whether the registered `onPreStop` hook is
reached (hapi runs it during `server.stop()`), and whether all `server.stop`
calls resolve assuming no hook aborted them. -/
structure StopEnv where
  hookFires : Bool
  stopOk : Bool
deriving DecidableEq, Repr

/-- Result of one invocation of the `_exit` entry point: the manager after the
call, the argument passed to the real `internals.processExit` if it was
reached, and whether this invocation called `setTimeout` to arm the gate. -/
structure ExitOutcome where
  m : Manager
  exited : Option Int
  armed : Bool
deriving DecidableEq, Repr

/-- `if (typeof code === 'number' && code > this.exitCode) this.exitCode = code`
(`lib/index.js` lines 158-160).  `none` models a call with no numeric code. -/
def updateExitCode (m : Manager) (code : Option Int) : Manager :=
  match code with
  | some c => if c > m.exitCode then { m with exitCode := c } else m
  | none => m

/-- `if (!this.exitTimer) this.exitTimer = setTimeout(...)` (lines 162-168):
arms the gate only when the field is still unset. -/
def armTimer (m : Manager) : Manager :=
  if m.exitTimer then m else { m with exitTimer := true, timerPending := true }

/-- `Manager._listenerStopHandler` (lines 261-268): the one-shot `onPreStop`
hook; sets `state = 'prestopped'` and throws when `exitCode !== 0`.  The
second component records whether it threw. -/
def listenerStopHandler (m : Manager) : Manager × Bool :=
  ({ m with state := some MState.prestopped }, m.exitCode != 0)

/-- The inner stop performed by `_exit`'s `started` branch (lines 179-193):
`_stop` sets `state = 'stopping'` (line 273), the servers' `onPreStop` hooks
may run (setting `prestopped`, and aborting the stop when `exitCode !== 0`),
and `_stop` finishes with `stopped` on success or `errored` on any rejection
(lines 274-279); `_exit` swallows the rethrown error (lines 186-191). -/
def stopDuringExit (env : StopEnv) (m : Manager) : Manager :=
  let m1 := { m with state := some MState.stopping }
  if env.hookFires then
    let h := listenerStopHandler m1
    if h.2 then { h.1 with state := some MState.errored }
    else if env.stopOk then { h.1 with state := some MState.stopped }
    else { h.1 with state := some MState.errored }
  else if env.stopOk then { m1 with state := some MState.stopped }
  else { m1 with state := some MState.errored }

/-- The state dispatch of `Manager._exit` (lines 170-210), parameterised by
the recursive call used in the `started` branch (`return this._exit()`,
line 193). -/
def exitDispatch (recur : Option Int → StopEnv → Manager → ExitOutcome)
    (env : StopEnv) (armed : Bool) (m : Manager) : ExitOutcome :=
  match m.state with
  | some MState.starting => ⟨{ m with state := some MState.startAborted }, none, armed⟩
  | some MState.startAborted => ⟨m, none, armed⟩
  | some MState.started =>
      let m2 := stopDuringExit env m
      let r := recur none env m2
      ⟨r.m, r.exited, armed⟩
  | some MState.stopping => ⟨m, none, armed⟩
  | some MState.prestopped =>
      if m.exitCode = 0 then ⟨m, none, armed⟩
      else ⟨{ m with state := some MState.errored }, some m.exitCode, armed⟩
  | _ => ⟨m, some m.exitCode, armed⟩

/-- `Manager._exit` (lines 152-211) with explicit recursion fuel: bail out
when inactive (line 154), raise `exitCode` (lines 158-160), arm the exit gate
once (lines 162-168), then dispatch on `state`. -/
def exitCore : Nat → Option Int → StopEnv → Manager → ExitOutcome
  | 0, _, _, m => ⟨m, none, false⟩
  | Nat.succ fuel, code, env, m =>
      if m.active = false then ⟨m, none, false⟩
      else
        let m1 := updateExitCode m code
        let armed := !m1.exitTimer
        let m2 := armTimer m1
        exitDispatch (exitCore fuel) env armed m2

/-- One invocation of `Manager._exit`.  The only internal recursion is the
single `return this._exit()` reached from the `started` branch, whose state is
then `stopped` or `errored`, so fuel 2 computes the exact behaviour. -/
def exitFull (code : Option Int) (env : StopEnv) (m : Manager) : ExitOutcome :=
  exitCore 2 code env m

/-- `Manager.deactivate` (lines 136-148): tears down hooks, cancels the
pending gate timer (`clearTimeout(this.exitTimer)`, which does not reset the
field itself), clears the singleton and flips `active`; a no-op when already
inactive. -/
def deactivate (m : Manager) : Manager :=
  if m.active then { m with timerPending := false, active := false } else m

/-- The exit-gate timer callback (lines 163-167): `state = 'timeout'` then
`_exit(255)`; firing consumes the pending timeout. -/
def timerFire (env : StopEnv) (m : Manager) : ExitOutcome :=
  exitFull (some 255) env { m with state := some MState.timeout, timerPending := false }

/-- The termination triggers routed into the state machine: a call of the
`_exit` entry point with an optional code, the exit-gate timer firing, and
`deactivate()`. -/
inductive Trigger
  | exitCall (code : Option Int) (env : StopEnv)
  | timerFired (env : StopEnv)
  | deact
deriving DecidableEq, Repr

/-- Deliver one trigger: the timer callback only runs while the timeout is
still pending.  The second component is the code passed to the real
`internals.processExit`, if it was reached. -/
def applyTrigger (m : Manager) (t : Trigger) : Manager × Option Int :=
  match t with
  | Trigger.exitCall code env =>
      let r := exitFull code env m
      (r.m, r.exited)
  | Trigger.timerFired env =>
      if m.timerPending then
        let r := timerFire env m
        (r.m, r.exited)
      else (m, none)
  | Trigger.deact => (deactivate m, none)

/-- Deliver a sequence of triggers. -/
def runTriggers (m : Manager) (ts : List Trigger) : Manager :=
  ts.foldl (fun m t => (applyTrigger m t).1) m

/-- The severity codes a single trigger actually delivers into the `_exit`
entry point of an active manager (a pending timer delivers 255). -/
def deliveredCode (m : Manager) (t : Trigger) : List Int :=
  match t with
  | Trigger.exitCall code _ => if m.active then code.toList else []
  | Trigger.timerFired _ => if m.timerPending && m.active then [255] else []
  | Trigger.deact => []

/-- All severity codes delivered along a trigger sequence. -/
def deliveredCodes : Manager → List Trigger → List Int
  | _, [] => []
  | m, t :: ts => deliveredCode m t ++ deliveredCodes (applyTrigger m t).1 ts

/-- The `armed` flags of successive `_exit` invocations. -/
def armedFlags : Manager → List (Option Int × StopEnv) → List Bool
  | _, [] => []
  | m, c :: ts =>
      let r := exitFull c.1 c.2 m
      r.armed :: armedFlags r.m ts

/-! ### Trigger Router: signal classification (`lib/index.js` lines 9-14, 213-225, 295-298) -/

/-- `internals.signals` (lines 9-14): the fixed signal set with its
classification, `true` meaning graceful. -/
def internalsSignals : List (String × Bool) :=
  [("SIGINT", true), ("SIGQUIT", true), ("SIGTERM", true), ("SIGHUP", false)]

/-- `Manager._gracefulHandler` (lines 220-225): acts only as the sole
listener of its signal, invoking `_exit(0)`. -/
def gracefulHandler (listenerCount : Nat) (env : StopEnv) (m : Manager) : ExitOutcome :=
  if listenerCount = 1 then exitFull (some 0) env m else ⟨m, none, false⟩

/-- `Manager._abortHandler` (lines 213-218): acts only as the sole listener
of its signal, invoking `_exit(1)`. -/
def abortHandler (listenerCount : Nat) (env : StopEnv) (m : Manager) : ExitOutcome :=
  if listenerCount = 1 then exitFull (some 1) env m else ⟨m, none, false⟩

/-- Handler selection in `_setupExitHooks` (lines 295-298): a graceful signal
gets `_gracefulHandler`, an abort signal gets `_abortHandler`. -/
def signalHandler (graceful : Bool) : Nat → StopEnv → Manager → ExitOutcome :=
  if graceful then gracefulHandler else abortHandler

/-! ### Startup Coordinator (`Manager.start`, lines 59-127)

The servers are identified by their index; `ok i` tells whether server `i`'s
`start()` resolves; the `schedule` is the order in which the concurrent
`safeStart` invocations settle. -/

/-- The closure state of `Manager.start` (lines 67-68): the first start error
(identified by the failing server), the `active` list of servers started and
not yet rolled back, and the `stop()` calls issued so far. -/
structure StartSim where
  startError : Option Nat := none
  started : List Nat := []
  stopped : List Nat := []
deriving DecidableEq, Repr

/-- One `safeStart` settling (lines 80-102): a successful `server.start()`
joins `active` unless an error was already recorded (then it throws
`Start aborted` and is rolled back, line 85-87); a failed start records the
first error and stops `active.concat(server)` (lines 91-100). -/
def safeStartSettle (ok : Nat → Bool) (sim : StartSim) (i : Nat) : StartSim :=
  if ok i then
    if sim.startError.isSome then
      { sim with started := [], stopped := sim.stopped ++ sim.started ++ [i] }
    else
      { sim with started := sim.started ++ [i] }
  else
    { startError := match sim.startError with
        | some e => some e
        | none => some i,
      started := [],
      stopped := sim.stopped ++ sim.started ++ [i] }

/-- `await Promise.all(this.servers.map(safeStart))` (line 105), with the
settlements serialised in `schedule` order. -/
def runStart (ok : Nat → Bool) (schedule : List Nat) : StartSim :=
  schedule.foldl (safeStartSettle ok) {}

/-- Result of `Manager.start` settling: the manager, the code passed to the
real `processExit` if the re-entered exit path reached it, and the start
error rethrown to the caller, if any. -/
structure StartOutcome where
  m : Manager
  exited : Option Int
  threw : Option Nat
deriving DecidableEq, Repr

/-- `this.state = startError ? 'errored' : 'started'` (line 109). -/
def settleState (startError : Option Nat) (m : Manager) : Manager :=
  { m with state := some (if startError.isSome then MState.errored else MState.started) }

/-- The `finally` block and tail of `Manager.start` (lines 107-118): when a
trigger arrived mid-start the machine is in `startAborted` and `start`
returns `this._exit()` instead of throwing; otherwise a recorded start error
is rethrown to the caller. -/
def finishStart (env : StopEnv) (startError : Option Nat) (m : Manager) : StartOutcome :=
  let aborted := m.state = some MState.startAborted
  let m2 := settleState startError m
  if aborted then
    let r := exitFull none env m2
    ⟨r.m, r.exited, none⟩
  else
    ⟨m2, none, startError⟩

/-- `Manager.start` (lines 59-127) when no trigger arrives during startup:
`state = 'starting'` (line 65), the concurrent starts settle, then the
`finally` block runs. -/
def managerStart (ok : Nat → Bool) (schedule : List Nat) (env : StopEnv) (m : Manager) :
    StartOutcome × StartSim :=
  let m1 := { m with state := some MState.starting }
  let sim := runStart ok schedule
  (finishStart env sim.startError m1, sim)

/-! ### Shutdown Coordinator (`Manager.stop` lines 129-134, `Manager._stop` lines 270-281) -/

/-- The observable actions of `Manager._stop`, in order. -/
inductive StopEvent
  | setState (s : MState)
  | stopCall (i : Nat)
deriving DecidableEq, Repr

/-- The action sequence of `Manager._stop` (lines 270-281) over servers whose
stop outcomes are `oks`: `state = 'stopping'` first (line 273), then a
`server.stop(options)` call per server (line 274), then `state = 'stopped'`
on success (line 275) or `state = 'errored'` on any rejection (line 278). -/
def stopEvents (oks : List Bool) : List StopEvent :=
  StopEvent.setState MState.stopping ::
    ((List.range oks.length).map StopEvent.stopCall ++
      [StopEvent.setState (if oks.all (fun b => b) then MState.stopped else MState.errored)])

/-- Effect of one `_stop` action on the manager: only the `setState` actions
mutate it. -/
def applyStopEvent (m : Manager) (e : StopEvent) : Manager :=
  match e with
  | StopEvent.setState s => { m with state := some s }
  | StopEvent.stopCall _ => m

/-- `Manager._stop` (lines 270-281): runs its action sequence and rethrows
the first rejection (`Promise.all` settles with the first failing stop). -/
def internalsStop (oks : List Bool) (m : Manager) : Manager × Option Nat :=
  ((stopEvents oks).foldl applyStopEvent m,
    if oks.all (fun b => b) then none else List.findIdx? (fun b => !b) oks)

/-- `Manager.stop` (lines 129-134): asserts `state === 'started'` before
delegating to `_stop`. -/
def managerStop (oks : List Bool) (m : Manager) : Except String (Manager × Option Nat) :=
  if m.state = some MState.started then Except.ok (internalsStop oks m)
  else Except.error "Stop requires that server is started"

/-! ### Explicit-exit interception and unhandled errors (lines 227-250, 303-313) -/

/-- Errors visible to the process-level handlers: the distinguished
`ProcessExitError` escape marker (lines 346-352) or any other error. -/
inductive JsError
  | processExitError
  | other (id : Nat)
deriving DecidableEq, Repr

/-- The monkey-patched `process.exit` (lines 303-313): invokes `this._exit(code)`
without awaiting it, then throws a `ProcessExitError` to escape the caller. -/
def patchedProcessExit (code : Option Int) (env : StopEnv) (m : Manager) :
    ExitOutcome × JsError :=
  (exitFull code env m, JsError.processExitError)

/-- Result of `Manager._unhandledError`: the exit outcome and whether the
error was logged. -/
structure UnhandledOutcome where
  m : Manager
  exited : Option Int
  logged : Bool
deriving DecidableEq, Repr

/-- `Manager._unhandledError` (lines 227-240): a `ProcessExitError` is
swallowed outright; any other error is logged, escalates `stopping` to
`errored`, and is treated as an `_exit(1)` abort trigger. -/
def unhandledError (err : JsError) (env : StopEnv) (m : Manager) : UnhandledOutcome :=
  match err with
  | JsError.processExitError => ⟨m, none, false⟩
  | JsError.other _ =>
      let m1 := if m.state = some MState.stopping then { m with state := some MState.errored } else m
      let r := exitFull (some 1) env m1
      ⟨r.m, r.exited, true⟩

/-! ### Construction (`Manager` constructor, lines 42-57) -/

/-- JS truthiness of an optional numeric option (`undefined` and `0` are
falsy). -/
def jsTruthyNum (v : Option Int) : Bool :=
  match v with
  | some x => x != 0
  | none => false

/-- The JS `a || b` fallback on an optional numeric value. -/
def jsOrNum (v : Option Int) (d : Int) : Int :=
  match v with
  | some x => if x = 0 then d else x
  | none => d

/-- The field initializers of `Manager` (lines 42-47): `exitTimeout = 5000`,
no state, no timer, `exitCode = 0`, `active = true`. -/
def defaultManager : Manager :=
  { exitTimeout := 5000, state := none, exitTimer := false, timerPending := false,
    exitCode := 0, active := true }

/-- The `Manager` constructor's option handling (line 53):
`this.exitTimeout = options.exitTimeout || this.exitTimeout`. -/
def newManager (optExitTimeout : Option Int) : Manager :=
  { defaultManager with exitTimeout := jsOrNum optExitTimeout defaultManager.exitTimeout }

/-! ### Field-preservation lemmas for the `_exit` building blocks -/

theorem updateExitCode_active (m : Manager) (c : Option Int) :
    (updateExitCode m c).active = m.active := by
  unfold updateExitCode; (repeat' split) <;> rfl

theorem updateExitCode_state (m : Manager) (c : Option Int) :
    (updateExitCode m c).state = m.state := by
  unfold updateExitCode; (repeat' split) <;> rfl

theorem updateExitCode_exitTimer (m : Manager) (c : Option Int) :
    (updateExitCode m c).exitTimer = m.exitTimer := by
  unfold updateExitCode; (repeat' split) <;> rfl

theorem updateExitCode_timerPending (m : Manager) (c : Option Int) :
    (updateExitCode m c).timerPending = m.timerPending := by
  unfold updateExitCode; (repeat' split) <;> rfl

theorem updateExitCode_none (m : Manager) : updateExitCode m none = m := rfl

theorem updateExitCode_some_exitCode (m : Manager) (c : Int) :
    (updateExitCode m (some c)).exitCode = max m.exitCode c := by
  unfold updateExitCode
  by_cases h : c > m.exitCode
  · simp only [if_pos h]; exact (max_eq_right h.le).symm
  · simp only [if_neg h]; exact (max_eq_left (not_lt.mp h)).symm

theorem armTimer_active (m : Manager) : (armTimer m).active = m.active := by
  unfold armTimer; split <;> rfl

theorem armTimer_state (m : Manager) : (armTimer m).state = m.state := by
  unfold armTimer; split <;> rfl

theorem armTimer_exitCode (m : Manager) : (armTimer m).exitCode = m.exitCode := by
  unfold armTimer; split <;> rfl

theorem armTimer_exitTimer (m : Manager) : (armTimer m).exitTimer = true := by
  unfold armTimer; split
  · assumption
  · rfl

theorem armTimer_timerPending_mono (m : Manager) (h : m.timerPending = true) :
    (armTimer m).timerPending = true := by
  unfold armTimer; split
  · exact h
  · rfl

theorem stopDuringExit_eq (env : StopEnv) (m : Manager) :
    stopDuringExit env m = { m with state := (stopDuringExit env m).state } := by
  unfold stopDuringExit listenerStopHandler
  dsimp only
  (repeat' split) <;> rfl

theorem stopDuringExit_state (env : StopEnv) (m : Manager) :
    (stopDuringExit env m).state = some MState.stopped ∨
      (stopDuringExit env m).state = some MState.errored := by
  unfold stopDuringExit listenerStopHandler
  dsimp only
  (repeat' split) <;> simp

theorem stopDuringExit_pred (P : Manager → Prop)
    (hstate : ∀ m s, P m → P { m with state := some s })
    (env : StopEnv) (m : Manager) (h : P m) : P (stopDuringExit env m) := by
  rcases stopDuringExit_state env m with hs | hs
  · rw [stopDuringExit_eq env m, hs]; exact hstate m _ h
  · rw [stopDuringExit_eq env m, hs]; exact hstate m _ h

/-! ### Invariant and computation lemmas for `exitCore` -/

theorem exitDispatch_pred (P : Manager → Prop)
    (recur : Option Int → StopEnv → Manager → ExitOutcome) (env : StopEnv)
    (armed : Bool) (m : Manager)
    (hstate : ∀ m s, P m → P { m with state := some s })
    (hrec : ∀ e m', P m' → P (recur none e m').m)
    (h : P m) : P (exitDispatch recur env armed m).m := by
  unfold exitDispatch
  split
  · exact hstate _ _ h
  · exact h
  · exact hrec _ _ (stopDuringExit_pred P hstate _ _ h)
  · exact h
  · split
    · exact h
    · exact hstate _ _ h
  · exact h

theorem exitDispatch_armed (recur : Option Int → StopEnv → Manager → ExitOutcome)
    (env : StopEnv) (armed : Bool) (m : Manager) :
    (exitDispatch recur env armed m).armed = armed := by
  unfold exitDispatch
  (repeat' split) <;> rfl

theorem exitCore_inactive (fuel : Nat) (code : Option Int) (env : StopEnv) (m : Manager)
    (h : m.active = false) : exitCore fuel code env m = ⟨m, none, false⟩ := by
  cases fuel with
  | zero => rfl
  | succ n => unfold exitCore; rw [if_pos h]

theorem exitCore_pred (P : Manager → Prop)
    (hstate : ∀ m s, P m → P { m with state := some s })
    (hupd : ∀ m c, P m → P (updateExitCode m c))
    (harm : ∀ m, P m → P (armTimer m)) :
    ∀ (fuel : Nat) (code : Option Int) (env : StopEnv) (m : Manager),
      P m → P (exitCore fuel code env m).m := by
  intro fuel
  induction fuel with
  | zero => intro code env m h; exact h
  | succ n ih =>
      intro code env m h
      unfold exitCore
      split
      · exact h
      · exact exitDispatch_pred P _ env _ _ hstate (fun e m' h' => ih none e m' h')
          (harm _ (hupd _ _ h))

theorem exitCore_none_pred (P : Manager → Prop)
    (hstate : ∀ m s, P m → P { m with state := some s })
    (harm : ∀ m, P m → P (armTimer m)) :
    ∀ (fuel : Nat) (env : StopEnv) (m : Manager),
      P m → P (exitCore fuel none env m).m := by
  intro fuel
  induction fuel with
  | zero => intro env m h; exact h
  | succ n ih =>
      intro env m h
      unfold exitCore
      split
      · exact h
      · exact exitDispatch_pred P _ env _ _ hstate (fun e m' h' => ih e m' h') (harm _ h)

theorem exitCore_none_exitCode (fuel : Nat) (env : StopEnv) (m : Manager) :
    (exitCore fuel none env m).m.exitCode = m.exitCode := by
  refine exitCore_none_pred (fun x => x.exitCode = m.exitCode) ?_ ?_ fuel env m rfl
  · intro m' s h; exact h
  · intro m' h; exact (armTimer_exitCode m').trans h

theorem exitCore_active (fuel : Nat) (code : Option Int) (env : StopEnv) (m : Manager) :
    (exitCore fuel code env m).m.active = m.active := by
  refine exitCore_pred (fun x => x.active = m.active) ?_ ?_ ?_ fuel code env m rfl
  · intro m' s h; exact h
  · intro m' c h; exact (updateExitCode_active m' c).trans h
  · intro m' h; exact (armTimer_active m').trans h

theorem exitCore_exitTimer_mono (fuel : Nat) (code : Option Int) (env : StopEnv)
    (m : Manager) (h : m.exitTimer = true) : (exitCore fuel code env m).m.exitTimer = true := by
  refine exitCore_pred (fun x => x.exitTimer = true) ?_ ?_ ?_ fuel code env m h
  · intro m' s h'; exact h'
  · intro m' c h'; exact (updateExitCode_exitTimer m' c).trans h'
  · intro m' h'; exact armTimer_exitTimer m'

theorem exitCore_timerPending_mono (fuel : Nat) (code : Option Int) (env : StopEnv)
    (m : Manager) (h : m.timerPending = true) :
    (exitCore fuel code env m).m.timerPending = true := by
  refine exitCore_pred (fun x => x.timerPending = true) ?_ ?_ ?_ fuel code env m h
  · intro m' s h'; exact h'
  · intro m' c h'; exact (updateExitCode_timerPending m' c).trans h'
  · intro m' h'; exact armTimer_timerPending_mono m' h'

theorem exitCore_succ_active (fuel : Nat) (code : Option Int) (env : StopEnv)
    (m : Manager) (h : m.active = true) :
    exitCore (fuel + 1) code env m =
      exitDispatch (exitCore fuel) env (!(updateExitCode m code).exitTimer)
        (armTimer (updateExitCode m code)) := by
  unfold exitCore
  rw [if_neg (by simp [h])]

theorem exitCore_succ_exitCode (fuel : Nat) (code : Option Int) (env : StopEnv)
    (m : Manager) (h : m.active = true) :
    (exitCore (fuel + 1) code env m).m.exitCode = (updateExitCode m code).exitCode := by
  rw [exitCore_succ_active fuel code env m h]
  refine exitDispatch_pred (fun x => x.exitCode = (updateExitCode m code).exitCode) _ env _ _
    ?_ ?_ (armTimer_exitCode _)
  · intro m' s h'; exact h'
  · intro e m' h'; exact (exitCore_none_exitCode fuel e m').trans h'

theorem exitCore_exited (fuel : Nat) (code : Option Int) (env : StopEnv) (m : Manager)
    (c : Int) (h : (exitCore fuel code env m).exited = some c) :
    c = (exitCore fuel code env m).m.exitCode := by
  induction fuel generalizing code env m with
  | zero => exact absurd h (by simp [exitCore])
  | succ n ih =>
      by_cases ha : m.active = true
      · rw [exitCore_succ_active n code env m ha] at h ⊢
        revert h
        unfold exitDispatch
        split <;> intro h
        · exact absurd h (by simp)
        · exact absurd h (by simp)
        · exact ih none env _ h
        · exact absurd h (by simp)
        · revert h
          split <;> intro h
          · exact absurd h (by simp)
          · simpa using h.symm
        · simpa using h.symm
      · rw [exitCore_inactive n.succ code env m (by simpa using ha)] at h
        exact absurd h (by simp)

theorem exitCore_succ_armed (fuel : Nat) (code : Option Int) (env : StopEnv)
    (m : Manager) : (exitCore (fuel + 1) code env m).armed = (m.active && !m.exitTimer) := by
  by_cases ha : m.active = true
  · rw [exitCore_succ_active fuel code env m ha, exitDispatch_armed,
      updateExitCode_exitTimer, ha, Bool.true_and]
  · have ha' : m.active = false := by simpa using ha
    rw [exitCore_inactive (fuel + 1) code env m ha']
    simp [ha']

/-! ### Per-state computation lemmas for `_exit` -/

theorem exitDispatch_of_starting (recur : Option Int → StopEnv → Manager → ExitOutcome)
    (env : StopEnv) (armed : Bool) (m : Manager) (h : m.state = some MState.starting) :
    exitDispatch recur env armed m =
      ⟨{ m with state := some MState.startAborted }, none, armed⟩ := by
  unfold exitDispatch
  split <;> simp_all

theorem exitDispatch_of_terminal (recur : Option Int → StopEnv → Manager → ExitOutcome)
    (env : StopEnv) (armed : Bool) (m : Manager)
    (h : m.state = some MState.stopped ∨ m.state = some MState.errored ∨
      m.state = some MState.timeout ∨ m.state = none) :
    exitDispatch recur env armed m = ⟨m, some m.exitCode, armed⟩ := by
  unfold exitDispatch
  split <;> rcases h with h | h | h | h <;> simp_all

theorem exitFull_starting (code : Option Int) (env : StopEnv) (m : Manager)
    (ha : m.active = true) (hs : m.state = some MState.starting) :
    exitFull code env m =
      ⟨{ armTimer (updateExitCode m code) with state := some MState.startAborted },
        none, !m.exitTimer⟩ := by
  unfold exitFull
  rw [exitCore_succ_active 1 code env m ha,
    exitDispatch_of_starting _ env _ _ (by rw [armTimer_state, updateExitCode_state]; exact hs),
    updateExitCode_exitTimer]

theorem exitFull_terminal (code : Option Int) (env : StopEnv) (m : Manager)
    (ha : m.active = true)
    (hs : m.state = some MState.stopped ∨ m.state = some MState.errored ∨
      m.state = some MState.timeout ∨ m.state = none) :
    exitFull code env m =
      ⟨armTimer (updateExitCode m code), some (armTimer (updateExitCode m code)).exitCode,
        !m.exitTimer⟩ := by
  unfold exitFull
  rw [exitCore_succ_active 1 code env m ha,
    exitDispatch_of_terminal _ env _ _
      (by rw [armTimer_state, updateExitCode_state]
          rcases hs with h | h | h | h <;> simp [h]),
    updateExitCode_exitTimer]

/-! ### Facts about `exitFull` used by the trace-level theorems -/

theorem exitFull_inactive (code : Option Int) (env : StopEnv) (m : Manager)
    (h : m.active = false) : exitFull code env m = ⟨m, none, false⟩ :=
  exitCore_inactive 2 code env m h

theorem exitFull_exitCode (code : Option Int) (env : StopEnv) (m : Manager) :
    (exitFull code env m).m.exitCode =
      if m.active = true then (updateExitCode m code).exitCode else m.exitCode := by
  by_cases h : m.active = true
  · rw [if_pos h]; exact exitCore_succ_exitCode 1 code env m h
  · have h' : m.active = false := by simpa using h
    rw [if_neg h, exitFull_inactive code env m h']

theorem exitFull_active (code : Option Int) (env : StopEnv) (m : Manager) :
    (exitFull code env m).m.active = m.active :=
  exitCore_active 2 code env m

theorem exitFull_exited (code : Option Int) (env : StopEnv) (m : Manager) (c : Int)
    (h : (exitFull code env m).exited = some c) : c = (exitFull code env m).m.exitCode :=
  exitCore_exited 2 code env m c h

theorem exitFull_exitTimer (code : Option Int) (env : StopEnv) (m : Manager)
    (h : m.active = true) : (exitFull code env m).m.exitTimer = true := by
  rw [exitFull, exitCore_succ_active 1 code env m h]
  refine exitDispatch_pred (fun x => x.exitTimer = true) _ env _ _ ?_ ?_ (armTimer_exitTimer _)
  · intro m' s h'; exact h'
  · intro e m' h'; exact exitCore_exitTimer_mono 1 none e m' h'

theorem exitFull_armed (code : Option Int) (env : StopEnv) (m : Manager) :
    (exitFull code env m).armed = (m.active && !m.exitTimer) :=
  exitCore_succ_armed 1 code env m

theorem exitFull_timerPending_mono (code : Option Int) (env : StopEnv) (m : Manager)
    (h : m.timerPending = true) : (exitFull code env m).m.timerPending = true :=
  exitCore_timerPending_mono 2 code env m h

theorem deactivate_exitCode (m : Manager) : (deactivate m).exitCode = m.exitCode := by
  unfold deactivate; split <;> rfl

theorem deactivate_active (m : Manager) : (deactivate m).active = false ∨ deactivate m = m := by
  unfold deactivate; split
  · exact Or.inl rfl
  · exact Or.inr rfl

theorem foldl_max_le_init (l : List Int) : ∀ a : Int, a ≤ l.foldl max a := by
  induction l with
  | nil => intro a; exact le_refl a
  | cons c t ih => intro a; exact le_trans (le_max_left a c) (ih (max a c))

theorem applyTrigger_exitCode (m : Manager) (t : Trigger) :
    (applyTrigger m t).1.exitCode = (deliveredCode m t).foldl max m.exitCode := by
  cases t with
  | exitCall code env =>
      show (exitFull code env m).m.exitCode = _
      rw [exitFull_exitCode]
      by_cases ha : m.active = true
      · rw [if_pos ha]
        cases code with
        | none => simp [deliveredCode, ha, updateExitCode_none]
        | some c => simp [deliveredCode, ha, updateExitCode_some_exitCode]
      · have ha' : m.active = false := by simpa using ha
        rw [if_neg ha]
        simp [deliveredCode, ha']
  | timerFired env =>
      have hredux : applyTrigger m (Trigger.timerFired env) =
          if m.timerPending then ((timerFire env m).m, (timerFire env m).exited)
          else (m, none) := rfl
      rw [hredux]
      by_cases hp : m.timerPending = true
      · rw [if_pos hp]
        show (timerFire env m).m.exitCode = _
        unfold timerFire
        rw [exitFull_exitCode]
        by_cases ha : m.active = true
        · rw [if_pos (by simpa using ha)]
          simp [deliveredCode, hp, ha, updateExitCode_some_exitCode]
        · have ha' : m.active = false := by simpa using ha
          rw [if_neg (by simpa using ha')]
          simp [deliveredCode, hp, ha']
      · have hp' : m.timerPending = false := by simpa using hp
        rw [if_neg (by simp [hp'])]
        simp [deliveredCode, hp']
  | deact =>
      show (deactivate m).exitCode = _
      rw [deactivate_exitCode]
      simp [deliveredCode]

theorem runTriggers_exitCode (ts : List Trigger) :
    ∀ m : Manager, (runTriggers m ts).exitCode = (deliveredCodes m ts).foldl max m.exitCode := by
  induction ts with
  | nil => intro m; rfl
  | cons t rest ih =>
      intro m
      show (runTriggers (applyTrigger m t).1 rest).exitCode = _
      rw [ih (applyTrigger m t).1]
      show _ = (deliveredCode m t ++ deliveredCodes (applyTrigger m t).1 rest).foldl max m.exitCode
      rw [List.foldl_append, ← applyTrigger_exitCode m t]

/-! ### Invariant of the Startup Coordinator simulation -/

/-- Invariant of `runStart` after the servers in `p` have settled: the
recorded error is the first failure in settlement order; while no failure has
settled the successfully started servers are exactly the `active` list and no
stop call was issued; once a failure has settled the `active` list is empty
and every settled server has received a `stop()` call. -/
def StartInv (ok : Nat → Bool) (p : List Nat) (sim : StartSim) : Prop :=
  sim.startError = p.find? (fun i => !ok i)
  ∧ (sim.startError = none → sim.started = p.filter ok ∧ sim.stopped = [])
  ∧ (sim.startError ≠ none → sim.started = [] ∧ ∀ i ∈ p, i ∈ sim.stopped)

theorem startInv_step (ok : Nat → Bool) (p : List Nat) (sim : StartSim) (i : Nat)
    (h : StartInv ok p sim) : StartInv ok (p ++ [i]) (safeStartSettle ok sim i) := by
  obtain ⟨he, hn, hs⟩ := h
  unfold safeStartSettle
  by_cases hoki : ok i = true
  · rw [if_pos hoki]
    by_cases herr : sim.startError.isSome = true
    · rw [if_pos herr]
      have hne : sim.startError ≠ none := by
        cases hse : sim.startError
        · rw [hse] at herr; simp at herr
        · simp
      obtain ⟨hstarted, hstopped⟩ := hs hne
      refine ⟨?_, ?_, ?_⟩
      · show sim.startError = _
        rw [List.find?_append, ← he]
        cases hse : sim.startError
        · exact absurd hse hne
        · simp [Option.or]
      · intro hcon; exact absurd hcon hne
      · intro _
        refine ⟨rfl, ?_⟩
        intro j hj
        rcases List.mem_append.mp hj with hj | hj
        · show j ∈ sim.stopped ++ sim.started ++ [i]
          simp only [List.mem_append]
          exact Or.inl (Or.inl (hstopped j hj))
        · show j ∈ sim.stopped ++ sim.started ++ [i]
          simp only [List.mem_append]
          exact Or.inr (by simpa using hj)
    · rw [if_neg herr]
      have hne : sim.startError = none := by
        cases hse : sim.startError
        · rfl
        · rw [hse] at herr; simp at herr
      obtain ⟨hstart, hstop⟩ := hn hne
      refine ⟨?_, ?_, ?_⟩
      · show sim.startError = _
        rw [List.find?_append, ← he, hne]
        simp [List.find?, hoki, Option.or]
      · intro _
        refine ⟨?_, hstop⟩
        show sim.started ++ [i] = (p ++ [i]).filter ok
        rw [List.filter_append, hstart]
        simp [List.filter, hoki]
      · intro hcon
        exact absurd hne hcon
  · rw [if_neg hoki]
    have hoki' : ok i = false := by simpa using hoki
    refine ⟨?_, ?_, ?_⟩
    · show (match sim.startError with
        | some e => some e
        | none => some i) = _
      rw [List.find?_append, ← he]
      cases hse : sim.startError
      · simp [List.find?, hoki', Option.or]
      · simp [Option.or]
    · intro hcon
      revert hcon
      cases sim.startError <;> simp
    · intro _
      refine ⟨rfl, ?_⟩
      intro j hj
      show j ∈ sim.stopped ++ sim.started ++ [i]
      simp only [List.mem_append]
      rcases List.mem_append.mp hj with hj | hj
      · cases hse : sim.startError
        · obtain ⟨hstart, _⟩ := hn hse
          refine Or.inl (Or.inr ?_)
          rw [hstart, List.mem_filter]
          refine ⟨hj, ?_⟩
          have hall := List.find?_eq_none.mp (he ▸ hse) j hj
          simpa using hall
        · obtain ⟨_, hstopped⟩ := hs (by simp [hse])
          exact Or.inl (Or.inl (hstopped j hj))
      · exact Or.inr (by simpa using hj)

theorem runStart_inv (ok : Nat → Bool) :
    ∀ (sched p : List Nat) (sim : StartSim), StartInv ok p sim →
      StartInv ok (p ++ sched) (sched.foldl (safeStartSettle ok) sim) := by
  intro sched
  induction sched with
  | nil => intro p sim h; simpa using h
  | cons i rest ih =>
      intro p sim h
      have hstep := startInv_step ok p sim i h
      have := ih (p ++ [i]) (safeStartSettle ok sim i) hstep
      simpa [List.append_assoc] using this

theorem runStart_spec (ok : Nat → Bool) (schedule : List Nat) :
    StartInv ok schedule (runStart ok schedule) := by
  have h0 : StartInv ok [] {} := by
    refine ⟨rfl, fun _ => ⟨rfl, rfl⟩, fun hc => absurd rfl hc⟩
  have h := runStart_inv ok schedule [] {} h0
  simpa using h

/-! ### Facts about the Shutdown Coordinator -/

theorem stopFold_calls (l : List Nat) :
    ∀ m : Manager, (l.map StopEvent.stopCall).foldl applyStopEvent m = m := by
  induction l with
  | nil => intro m; rfl
  | cons i t ih => intro m; exact ih m

theorem internalsStop_manager (oks : List Bool) (m : Manager) :
    (internalsStop oks m).1 =
      { m with state := some (if oks.all (fun b => b) then MState.stopped else MState.errored) } := by
  show (stopEvents oks).foldl applyStopEvent m = _
  unfold stopEvents
  rw [List.foldl_cons, List.foldl_append, stopFold_calls]
  rfl

theorem findIdx?_isSome_of_not_all (oks : List Bool)
    (h : oks.all (fun b => b) = false) : (List.findIdx? (fun b => !b) oks).isSome := by
  rw [List.findIdx?_isSome]
  simp only [List.all_eq_false] at h
  simp only [List.any_eq_true]
  obtain ⟨x, hx, hfx⟩ := h
  exact ⟨x, hx, by simpa using hfx⟩

theorem armedFlags_after (ts : List (Option Int × StopEnv)) :
    ∀ m : Manager, m.active = true → m.exitTimer = true →
      armedFlags m ts = List.replicate ts.length false := by
  induction ts with
  | nil => intro m _ _; rfl
  | cons c rest ih =>
      intro m ha ht
      show (exitFull c.1 c.2 m).armed :: armedFlags (exitFull c.1 c.2 m).m rest = _
      rw [exitFull_armed, ha, ht,
        ih (exitFull c.1 c.2 m).m ((exitFull_active c.1 c.2 m).trans ha)
          (exitFull_exitTimer c.1 c.2 m ha)]
      rfl

/-! ### Concrete fixtures used by the witness theorems -/

/-- A manager in `started` state, as after a successful `start()`. -/
def mgrStarted : Manager := { defaultManager with state := some MState.started }

/-- A started manager whose exit gate has been armed and is still pending. -/
def mgrPending : Manager :=
  { defaultManager with state := some MState.started, exitTimer := true, timerPending := true }

/-- A manager captured mid-`start()`. -/
def mgrStarting : Manager := { defaultManager with state := some MState.starting }

/-- A server-stop oracle where hooks run and stops succeed. -/
def envTT : StopEnv := ⟨true, true⟩

/-! ### The claims -/

/-- C1: for every sequence of triggers delivered to an active Manager,
`exitCode` is monotonically non-decreasing — each `_exit` call leaves it
unchanged or raises it to the supplied code — it accumulates the maximum of
all delivered severity codes, and whenever the real termination primitive is
invoked it receives exactly the manager's current (maximal) `exitCode`. -/
theorem claim1_exitCode_monotone_final_max (m : Manager) (ts : List Trigger) :
    (∀ (code : Option Int) (env : StopEnv) (mi : Manager),
        (exitFull code env mi).m.exitCode = mi.exitCode ∨
          code = some (exitFull code env mi).m.exitCode)
  ∧ (∀ (t : Trigger) (mi : Manager), mi.exitCode ≤ (applyTrigger mi t).1.exitCode)
  ∧ (runTriggers m ts).exitCode = (deliveredCodes m ts).foldl max m.exitCode
  ∧ (∀ (code : Option Int) (env : StopEnv) (mi : Manager) (c : Int),
        (exitFull code env mi).exited = some c → c = (exitFull code env mi).m.exitCode) := by
  refine ⟨?_, ?_, runTriggers_exitCode ts m,
    fun code env mi c hc => exitFull_exited code env mi c hc⟩
  · intro code env mi
    by_cases ha : mi.active = true
    · rw [exitFull_exitCode, if_pos ha]
      cases code with
      | none => exact Or.inl (by rw [updateExitCode_none])
      | some c =>
          rw [updateExitCode_some_exitCode]
          by_cases hgt : mi.exitCode < c
          · exact Or.inr (by rw [max_eq_right hgt.le])
          · exact Or.inl (max_eq_left (not_lt.mp hgt))
    · have ha' : mi.active = false := by simpa using ha
      rw [exitFull_inactive code env mi ha']
      exact Or.inl rfl
  · intro t mi
    rw [applyTrigger_exitCode]
    exact foldl_max_le_init _ _

/-- Witness for C1 at a concrete input: an abort code delivered to a started
manager reaches the real termination primitive with the manager's final
`exitCode`. -/
theorem claim1_witness :
    (exitFull (some 1) envTT mgrStarted).exited = some 1 ∧
      (1 : Int) = (exitFull (some 1) envTT mgrStarted).m.exitCode := by
  refine ⟨by decide, ?_⟩
  exact (claim1_exitCode_monotone_final_max defaultManager []).2.2.2
    (some 1) envTT mgrStarted 1 (by decide)

/-- C2 counterexample: the claim says exactly two signals are classified
graceful and exactly one abort, but `internals.signals` marks three signals
graceful (SIGINT, SIGQUIT, SIGTERM) and one abort (SIGHUP). -/
theorem claim2_counterexample :
    ¬ ((internalsSignals.filter (fun s => s.2)).length = 2 ∧
       (internalsSignals.filter (fun s => !s.2)).length = 1) := by
  decide

/-- C2 (amended): the Trigger Router subscribes to a fixed set of four
termination signals of which exactly three are classified graceful (handler
invokes the exit entry point with code 0 when it is the sole listener) and
exactly one abort (handler invokes the exit entry point with code 1). -/
theorem claim2_signal_classification :
    internalsSignals.length = 4
  ∧ (internalsSignals.filter (fun s => s.2)).length = 3
  ∧ (internalsSignals.filter (fun s => !s.2)).length = 1
  ∧ internalsSignals.map Prod.fst = ["SIGINT", "SIGQUIT", "SIGTERM", "SIGHUP"]
  ∧ (∀ (env : StopEnv) (m : Manager), signalHandler true 1 env m = exitFull (some 0) env m)
  ∧ (∀ (env : StopEnv) (m : Manager), signalHandler false 1 env m = exitFull (some 1) env m) := by
  exact ⟨rfl, by decide, by decide, rfl, fun env m => rfl, fun env m => rfl⟩

/-- C3: on an active manager whose gate is unarmed, the first `_exit` call of
any kind arms the timer and no later call ever re-arms it; the pending timer
is cancelled by `deactivate()` while neither `_exit` (including the stop it
performs) nor `_stop` ever cancels it. -/
theorem claim3_gate_armed_once (m : Manager) (h1 : m.active = true)
    (h2 : m.exitTimer = false) :
    (∀ (c : Option Int) (e : StopEnv) (ts : List (Option Int × StopEnv)),
        armedFlags m ((c, e) :: ts) = true :: List.replicate ts.length false)
  ∧ (∀ mi : Manager, mi.active = true → (deactivate mi).timerPending = false)
  ∧ (∀ (mi : Manager) (code : Option Int) (env : StopEnv),
        mi.timerPending = true → (exitFull code env mi).m.timerPending = true)
  ∧ (∀ (oks : List Bool) (mi : Manager),
        (internalsStop oks mi).1.timerPending = mi.timerPending) := by
  refine ⟨?_, ?_, ?_, ?_⟩
  · intro c e ts
    show (exitFull c e m).armed :: armedFlags (exitFull c e m).m ts = _
    rw [exitFull_armed, h1, h2,
      armedFlags_after ts (exitFull c e m).m ((exitFull_active c e m).trans h1)
        (exitFull_exitTimer c e m h1)]
    rfl
  · intro mi ha
    unfold deactivate
    rw [if_pos ha]
  · intro mi code env hp
    exact exitFull_timerPending_mono code env mi hp
  · intro oks mi
    rw [internalsStop_manager]

/-- Witness for C3 at concrete inputs: two successive exit calls on a fresh
manager arm the gate exactly once; `deactivate` cancels a pending gate; an
exit call on a manager with a pending gate keeps it pending. -/
theorem claim3_witness :
    armedFlags defaultManager [(some 0, envTT), (none, ⟨false, true⟩)] = [true, false]
  ∧ (deactivate mgrPending).timerPending = false
  ∧ (exitFull (some 3) envTT mgrPending).m.timerPending = true := by
  have h := claim3_gate_armed_once defaultManager (by decide) (by decide)
  refine ⟨?_, h.2.1 mgrPending (by decide), h.2.2.1 mgrPending (some 3) envTT (by decide)⟩
  exact h.1 (some 0) envTT [(none, ⟨false, true⟩)]

/-- C7: when the exit gate fires on an active manager with a pending timer,
the callback sets `state = 'timeout'` and re-invokes the exit entry point
with code 255, so the real termination primitive is reached with a code that
is at least 255 and at least any previously accumulated `exitCode`. -/
theorem claim7_timeout_forces_exit (m : Manager) (env : StopEnv)
    (h1 : m.active = true) (h2 : m.timerPending = true) :
    timerFire env m =
      exitFull (some 255) env { m with state := some MState.timeout, timerPending := false }
  ∧ applyTrigger m (Trigger.timerFired env) = ((timerFire env m).m, (timerFire env m).exited)
  ∧ (timerFire env m).m.state = some MState.timeout
  ∧ (timerFire env m).exited = some (max m.exitCode 255)
  ∧ (255 : Int) ≤ max m.exitCode 255
  ∧ m.exitCode ≤ max m.exitCode 255 := by
  have hterm := exitFull_terminal (some 255) env
    { m with state := some MState.timeout, timerPending := false } h1
    (Or.inr (Or.inr (Or.inl rfl)))
  have htf : timerFire env m =
      ⟨armTimer (updateExitCode { m with state := some MState.timeout, timerPending := false }
          (some 255)),
        some (armTimer (updateExitCode
          { m with state := some MState.timeout, timerPending := false } (some 255))).exitCode,
        !m.exitTimer⟩ := hterm
  refine ⟨rfl, ?_, ?_, ?_, le_max_right m.exitCode 255, le_max_left m.exitCode 255⟩
  · have hredux : applyTrigger m (Trigger.timerFired env) =
        if m.timerPending then ((timerFire env m).m, (timerFire env m).exited)
        else (m, none) := rfl
    rw [hredux, if_pos h2]
  · rw [htf]
    show (armTimer (updateExitCode _ (some 255))).state = some MState.timeout
    rw [armTimer_state, updateExitCode_state]
  · rw [htf]
    show some (armTimer (updateExitCode _ (some 255))).exitCode = some (max m.exitCode 255)
    rw [armTimer_exitCode, updateExitCode_some_exitCode]

/-- Witness for C7 at a concrete input: the gate firing on a started manager
with a pending timer and accumulated code 0 terminates with code 255. -/
theorem claim7_witness :
    (timerFire envTT mgrPending).m.state = some MState.timeout
  ∧ (timerFire envTT mgrPending).exited = some (max mgrPending.exitCode 255)
  ∧ (255 : Int) ≤ max mgrPending.exitCode 255 := by
  have h := claim7_timeout_forces_exit mgrPending envTT (by decide) (by decide)
  exact ⟨h.2.2.1, h.2.2.2.1, h.2.2.2.2.1⟩

/-- C8: once `deactivate()` has run on an active manager, `active` is false,
every further invocation of the exit entry point returns immediately with the
manager unchanged — no state or `exitCode` mutation, no termination, no timer
arming — the cancelled gate timer never fires, and a second `deactivate()`
changes nothing. -/
theorem claim8_deactivated_inert (m : Manager) (code : Option Int) (env : StopEnv)
    (h : m.active = true) :
    (deactivate m).active = false
  ∧ exitFull code env (deactivate m) = ⟨deactivate m, none, false⟩
  ∧ applyTrigger (deactivate m) (Trigger.timerFired env) = (deactivate m, none)
  ∧ deactivate (deactivate m) = deactivate m := by
  have hd : deactivate m = { m with timerPending := false, active := false } := by
    unfold deactivate
    rw [if_pos h]
  have hact : (deactivate m).active = false := by rw [hd]
  refine ⟨hact, exitFull_inactive code env _ hact, ?_, ?_⟩
  · have hredux : applyTrigger (deactivate m) (Trigger.timerFired env) =
        if (deactivate m).timerPending
        then ((timerFire env (deactivate m)).m, (timerFire env (deactivate m)).exited)
        else (deactivate m, none) := rfl
    rw [hredux, if_neg (by rw [hd]; simp)]
  · show (if (deactivate m).active then _ else deactivate m) = deactivate m
    rw [hact]
    simp

/-- Witness for C8 at a concrete input: deactivating a started manager makes
a subsequent exit call with code 5 a no-op. -/
theorem claim8_witness :
    (deactivate mgrStarted).active = false
  ∧ exitFull (some 5) envTT (deactivate mgrStarted) = ⟨deactivate mgrStarted, none, false⟩
  ∧ deactivate (deactivate mgrStarted) = deactivate mgrStarted := by
  have h := claim8_deactivated_inert mgrStarted (some 5) envTT (by decide)
  exact ⟨h.1, h.2.1, h.2.2.2⟩

/-- C9: the intercepted `process.exit` invokes the exit entry point with the
supplied code and then unconditionally throws the `ProcessExitError` escape
marker, and `_unhandledError` swallows that marker: the manager is untouched,
nothing is logged, and no abort trigger is generated. -/
theorem claim9_escape_marker (code : Option Int) (env : StopEnv) (m : Manager) :
    (patchedProcessExit code env m).2 = JsError.processExitError
  ∧ (patchedProcessExit code env m).1 = exitFull code env m
  ∧ unhandledError JsError.processExitError env m = ⟨m, none, false⟩
  ∧ (unhandledError JsError.processExitError env m).logged = false
  ∧ (unhandledError JsError.processExitError env m).m = m
  ∧ (unhandledError JsError.processExitError env m).exited = none :=
  ⟨rfl, rfl, rfl, rfl, rfl, rfl⟩

/-- C10: the constructed manager's `exitTimeout` is `options.exitTimeout`
when that value is truthy and the 5000 ms default otherwise (so an explicit
`exitTimeout: 0` silently falls back to 5000). -/
theorem claim10_exitTimeout_fallback (opt : Option Int) :
    (newManager opt).exitTimeout = (if jsTruthyNum opt then opt.getD 0 else 5000)
  ∧ defaultManager.exitTimeout = 5000 := by
  refine ⟨?_, rfl⟩
  cases opt with
  | none => rfl
  | some x =>
      by_cases hx : x = 0
      · subst hx; rfl
      · simp [newManager, jsOrNum, jsTruthyNum, defaultManager, hx]

/-- C4: when at least one server's start rejects with a genuine error and no
abort trigger arrives during startup, the recorded error is the first start
failure in settlement order, every server — the successfully started ones and
the failing ones alike — receives a `stop()` call, none remains active,
`start()` rethrows that first error, and the final state is `errored`. -/
theorem claim4_start_failure_rollback (ok : Nat → Bool) (schedule : List Nat)
    (env : StopEnv) (m : Manager) (h : ∃ i ∈ schedule, ok i = false) :
    (runStart ok schedule).startError = schedule.find? (fun i => !ok i)
  ∧ ((runStart ok schedule).startError).isSome
  ∧ (runStart ok schedule).started = []
  ∧ (∀ i ∈ schedule, i ∈ (runStart ok schedule).stopped)
  ∧ (managerStart ok schedule env m).1.threw = (runStart ok schedule).startError
  ∧ (managerStart ok schedule env m).1.m.state = some MState.errored
  ∧ (managerStart ok schedule env m).1.exited = none := by
  obtain ⟨he, hn, hs⟩ := runStart_spec ok schedule
  have hsome : ((runStart ok schedule).startError).isSome := by
    rw [he, List.find?_isSome]
    obtain ⟨i, hi, hoki⟩ := h
    exact ⟨i, hi, by simp [hoki]⟩
  have hne : (runStart ok schedule).startError ≠ none := by
    cases hse : (runStart ok schedule).startError
    · rw [hse] at hsome; simp at hsome
    · simp
  obtain ⟨hstarted, hstopped⟩ := hs hne
  have hfin : (managerStart ok schedule env m).1 =
      ⟨settleState (runStart ok schedule).startError { m with state := some MState.starting },
        none, (runStart ok schedule).startError⟩ := by
    show finishStart env (runStart ok schedule).startError
        { m with state := some MState.starting } = _
    unfold finishStart
    rw [if_neg (by simp)]
  refine ⟨he, hsome, hstarted, hstopped, ?_, ?_, ?_⟩
  · rw [hfin]
  · rw [hfin]
    show some (if ((runStart ok schedule).startError).isSome then MState.errored
        else MState.started) = some MState.errored
    rw [hsome]
    rfl
  · rw [hfin]

/-- Witness for C4 at a concrete input: of three servers settling in order,
the middle one fails; all three are stopped, `start()` rethrows the failure
of server 1, and the machine ends `errored`. -/
theorem claim4_witness :
    (∃ i ∈ [0, 1, 2], (fun j => j != 1) i = false)
  ∧ (runStart (fun j => j != 1) [0, 1, 2]).startError = some 1
  ∧ (∀ i ∈ [0, 1, 2], i ∈ (runStart (fun j => j != 1) [0, 1, 2]).stopped)
  ∧ (managerStart (fun j => j != 1) [0, 1, 2] envTT defaultManager).1.threw = some 1
  ∧ (managerStart (fun j => j != 1) [0, 1, 2] envTT defaultManager).1.m.state =
      some MState.errored := by
  have h := claim4_start_failure_rollback (fun j => j != 1) [0, 1, 2] envTT defaultManager
    (by decide)
  refine ⟨by decide, by decide, h.2.2.2.1, ?_, h.2.2.2.2.2.1⟩
  rw [h.2.2.2.2.1]
  decide

/-- C5: a termination trigger arriving while the manager is `starting` moves
it to `startAborted` without terminating; once startup settles — with or
without a start error — `start()` resolves without throwing, the machine
re-enters the exit path via `_exit()` with no code, and the accumulated
`exitCode` is preserved into that exit path. -/
theorem claim5_abort_during_start (m : Manager) (code : Option Int)
    (env env2 : StopEnv) (se : Option Nat)
    (h1 : m.active = true) (h2 : m.state = some MState.starting) :
    (exitFull code env m).m.state = some MState.startAborted
  ∧ (exitFull code env m).exited = none
  ∧ (finishStart env2 se (exitFull code env m).m).threw = none
  ∧ (finishStart env2 se (exitFull code env m).m).m.exitCode = (exitFull code env m).m.exitCode
  ∧ (finishStart env2 se (exitFull code env m).m).m =
      (exitFull none env2 (settleState se (exitFull code env m).m)).m
  ∧ (finishStart env2 se (exitFull code env m).m).exited =
      (exitFull none env2 (settleState se (exitFull code env m).m)).exited := by
  have hx := exitFull_starting code env m h1 h2
  have hstate : (exitFull code env m).m.state = some MState.startAborted := by rw [hx]
  have hfin : finishStart env2 se (exitFull code env m).m =
      ⟨(exitFull none env2 (settleState se (exitFull code env m).m)).m,
        (exitFull none env2 (settleState se (exitFull code env m).m)).exited, none⟩ := by
    unfold finishStart
    rw [if_pos hstate]
  refine ⟨hstate, by rw [hx], by rw [hfin], ?_, by rw [hfin], by rw [hfin]⟩
  rw [hfin]
  show (exitFull none env2 (settleState se (exitFull code env m).m)).m.exitCode = _
  rw [exitFull_exitCode]
  split <;> rfl

/-- Witness for C5 at a concrete input: an abort code 1 arriving mid-start,
with the startup then settling with a failed server, still resolves without
throwing and keeps `exitCode = 1`. -/
theorem claim5_witness :
    (exitFull (some 1) envTT mgrStarting).m.state = some MState.startAborted
  ∧ (finishStart envTT (some 0) (exitFull (some 1) envTT mgrStarting).m).threw = none
  ∧ (finishStart envTT (some 0) (exitFull (some 1) envTT mgrStarting).m).m.exitCode =
      (exitFull (some 1) envTT mgrStarting).m.exitCode := by
  have h := claim5_abort_during_start mgrStarting (some 1) envTT envTT (some 0)
    (by decide) (by decide)
  exact ⟨h.1, h.2.2.1, h.2.2.2.1⟩

/-- C6: `Manager.stop` succeeds only in the `started` state and fails with
its assertion message otherwise; `_stop` sets `stopping` before issuing any
`server.stop` call, ends `stopped` exactly when every stop resolves, and on
any failure ends `errored` and rethrows the first failure to the caller. -/
theorem claim6_stop_contract (oks : List Bool) (m : Manager)
    (h : m.state = some MState.started) :
    managerStop oks m = Except.ok (internalsStop oks m)
  ∧ (∀ mi : Manager, mi.state ≠ some MState.started →
        managerStop oks mi = Except.error "Stop requires that server is started")
  ∧ (stopEvents oks).head? = some (StopEvent.setState MState.stopping)
  ∧ (∀ i : Nat, StopEvent.stopCall i ∈ (stopEvents oks).tail ↔ i < oks.length)
  ∧ ((internalsStop oks m).1.state = some MState.stopped ↔ oks.all (fun b => b) = true)
  ∧ (oks.all (fun b => b) = false →
        (internalsStop oks m).1.state = some MState.errored
      ∧ (internalsStop oks m).2 = List.findIdx? (fun b => !b) oks
      ∧ ((internalsStop oks m).2).isSome) := by
  refine ⟨?_, ?_, rfl, ?_, ?_, ?_⟩
  · unfold managerStop
    rw [if_pos h]
  · intro mi hmi
    unfold managerStop
    rw [if_neg hmi]
  · intro i
    show StopEvent.stopCall i ∈
      (List.range oks.length).map StopEvent.stopCall ++
        [StopEvent.setState (if oks.all (fun b => b) then MState.stopped else MState.errored)] ↔ _
    simp [List.mem_append, List.mem_map, List.mem_range]
  · rw [internalsStop_manager]
    by_cases hall : oks.all (fun b => b) = true
    · simp [hall]
    · simp [hall]
  · intro hfail
    refine ⟨?_, ?_, ?_⟩
    · rw [internalsStop_manager]
      simp [hfail]
    · show (if oks.all (fun b => b) then none else List.findIdx? (fun b => !b) oks) = _
      rw [hfail]
      simp
    · show (if oks.all (fun b => b) then none
          else List.findIdx? (fun b => !b) oks).isSome
      rw [hfail]
      simpa using findIdx?_isSome_of_not_all oks hfail

/-- Witness for C6 at concrete inputs: a started manager with one of two
server stops failing ends `errored` with the failure rethrown, while a
never-started manager fails the assertion. -/
theorem claim6_witness :
    managerStop [true, false] mgrStarted = Except.ok (internalsStop [true, false] mgrStarted)
  ∧ managerStop [true, false] defaultManager =
      Except.error "Stop requires that server is started"
  ∧ (internalsStop [true, false] mgrStarted).1.state = some MState.errored
  ∧ ((internalsStop [true, false] mgrStarted).2).isSome := by
  have h := claim6_stop_contract [true, false] mgrStarted (by decide)
  refine ⟨h.1, h.2.1 defaultManager (by decide), ?_, ?_⟩
  · exact (h.2.2.2.2.2 (by decide)).1
  · exact (h.2.2.2.2.2 (by decide)).2.2

